import Mathlib

/-!
Verification of the METAR calendar data pipeline.

Shallow embedding of the core pipeline of the repository:
ceiling derivation per observation, flight-rule classification,
hourly minimum reduction, per-hour category distribution, the
cache-aside cache over an abstract storage backend, and the local
file storage atomic write.

Numeric columns (visibility in statute miles, sky-layer heights in
feet) are floats in the source; they are modelled as rationals, with
`Option` for pandas missing values (NaN): every comparison `NaN >= t`
in the source is false, which `visGe` mirrors.
-/

/-- Flight-rule category, ordinal: larger value is better conditions
(source: `FlightCondition(IntEnum)` in lib/analyzer.py). -/
inductive FlightCondition where
  | LIFR
  | IFR
  | MVFR
  | VFR
  deriving DecidableEq, Repr

/-- Numeric value of each category (LIFR=1, IFR=2, MVFR=3, VFR=4),
as in the source IntEnum. -/
def FlightCondition.val : FlightCondition → Nat
  | .LIFR => 1
  | .IFR => 2
  | .MVFR => 3
  | .VFR => 4

/-- Category name string, as used for dataframe column labels. -/
def FlightCondition.label : FlightCondition → String
  | .LIFR => "LIFR"
  | .IFR => "IFR"
  | .MVFR => "MVFR"
  | .VFR => "VFR"

/-- Minimum of two categories by IntEnum value: the worse category.
Mirrors the pandas `agg('min')` over the IntEnum column. -/
def fcMin (a b : FlightCondition) : FlightCondition :=
  if a.val ≤ b.val then a else b

/-- `vis >= t` where `vis` may be missing (NaN): any comparison with
NaN is false in Python, so a missing value fails every threshold. -/
def visGe (vis : Option ℚ) (t : ℚ) : Bool :=
  match vis with
  | none => false
  | some v => decide (t ≤ v)

/-- The ordered rule table of `classify` (lib/analyzer.py lines
122-128), given the already-derived ceiling and the visibility. -/
def classify (ceil : ℚ) (vis : Option ℚ) : FlightCondition :=
  if 3000 ≤ ceil ∧ visGe vis 5 then .VFR
  else if 1000 ≤ ceil ∧ visGe vis 3 then .MVFR
  else if 500 ≤ ceil ∧ visGe vis 1 then .IFR
  else .LIFR

/-- One sky layer of an observation: condition code (skyc) and height
in feet (skyl), each possibly missing. -/
structure SkyLayer where
  cond : Option String
  height : Option ℚ
  deriving DecidableEq, Repr

/-- One iteration of the ceiling loop in
`MetarSummarizer._calculate_ceiling` (lib/metar_summarizer.py lines
35-43): skip the layer when condition or height is missing or the
condition is not BKN/OVC/VV; otherwise take the height when
`not ceil or height < ceil` (note: `not ceil` is true exactly when
the running value is 0). -/
def ceilingStep (ceil : ℚ) (layer : SkyLayer) : ℚ :=
  match layer.cond, layer.height with
  | some c, some h =>
    if c = "BKN" ∨ c = "OVC" ∨ c = "VV" then
      if ceil = 0 ∨ h < ceil then h else ceil
    else ceil
  | _, _ => ceil

/-- `MetarSummarizer._calculate_ceiling`: fold the loop body over the
(at most 4) sky layers, starting from the sentinel 100000. -/
def calculateCeiling (layers : List SkyLayer) : ℚ :=
  (layers.take 4).foldl ceilingStep 100000

/-- Modelled from the spec: the heights of the layers that qualify
for a ceiling (condition present and in BKN/OVC/VV, height present),
among the first 4 layers. -/
def qualifyingHeights (layers : List SkyLayer) : List ℚ :=
  (layers.take 4).filterMap (fun l =>
    match l.cond, l.height with
    | some c, some h =>
      if c = "BKN" ∨ c = "OVC" ∨ c = "VV" then some h else none
    | _, _ => none)

/-- Modelled from the spec: ceiling is the minimum qualifying height,
or the sentinel 100000 when no layer qualifies. -/
def specCeiling (layers : List SkyLayer) : ℚ :=
  match qualifyingHeights layers with
  | [] => 100000
  | h :: t => t.foldl min h

/-- C10: an observation whose visibility is absent is always
classified LIFR, regardless of its ceiling: a missing visibility
fails every threshold comparison, so classification falls through all
three guarded rules. -/
theorem classify_none_vis_LIFR (c : ℚ) : classify c none = .LIFR := by
  simp [classify, visGe]

/-- C1: the classification function is total and deterministic (it is
a function), returns the first matching row of the ordered rule table
(VFR: ceiling ≥ 3000 and vis ≥ 5; else MVFR: ceiling ≥ 1000 and
vis ≥ 3; else IFR: ceiling ≥ 500 and vis ≥ 1; else LIFR), and
boundary values belong to the better category: classify 3000 5 = VFR
and classify 2999 5 = MVFR. -/
theorem classify_rule_table (c v : ℚ) :
    (classify c (some v) = .VFR ↔ (3000 ≤ c ∧ 5 ≤ v)) ∧
    (classify c (some v) = .MVFR ↔
      (¬(3000 ≤ c ∧ 5 ≤ v) ∧ (1000 ≤ c ∧ 3 ≤ v))) ∧
    (classify c (some v) = .IFR ↔
      (¬(3000 ≤ c ∧ 5 ≤ v) ∧ ¬(1000 ≤ c ∧ 3 ≤ v) ∧ (500 ≤ c ∧ 1 ≤ v))) ∧
    (classify c (some v) = .LIFR ↔
      (¬(3000 ≤ c ∧ 5 ≤ v) ∧ ¬(1000 ≤ c ∧ 3 ≤ v) ∧ ¬(500 ≤ c ∧ 1 ≤ v))) ∧
    classify 3000 (some 5) = .VFR ∧ classify (2999 : ℚ) (some 5) = .MVFR := by
  refine ⟨?_, ?_, ?_, ?_, by norm_num [classify, visGe], by norm_num [classify, visGe]⟩ <;>
    · simp only [classify, visGe, decide_eq_true_eq]
      split_ifs <;> simp_all

/-- C2: the code does not always return the minimum qualifying layer
height: with layers (VV, 0) then (BKN, 2000), the `not ceil` guard
resets the running minimum after it reaches 0, producing 2000 where
the minimum qualifying height (and the function's own docstring,
"lowest ceiling") is 0. -/
theorem calculateCeiling_zero_height_bug :
    calculateCeiling [⟨some "VV", some 0⟩, ⟨some "BKN", some 2000⟩] = 2000 ∧
    specCeiling [⟨some "VV", some 0⟩, ⟨some "BKN", some 2000⟩] = 0 ∧
    calculateCeiling [⟨some "VV", some 0⟩, ⟨some "BKN", some 2000⟩] ≠
      specCeiling [⟨some "VV", some 0⟩, ⟨some "BKN", some 2000⟩] := by
  refine ⟨?_, ?_, ?_⟩ <;> decide

/-! ## Hourly minimum reduction (MetarSummarizer._compute_hourly_minimums) -/

/-- One raw observation: timestamp in minutes (UTC), visibility
(`vsby`, possibly missing), and the sky layers. -/
structure Obs where
  date : Nat
  vsby : Option ℚ
  layers : List SkyLayer
  deriving DecidableEq, Repr

/-- `df['date'].dt.floor('1h')`: truncate a minute timestamp to the
start of its hour. -/
def floorHour (t : Nat) : Nat := t - t % 60

/-- pandas column minimum with `skipna` semantics: `none` (NaN) when
the list is empty, otherwise the least element. -/
def listMinQ : List ℚ → Option ℚ
  | [] => none
  | x :: xs =>
    match listMinQ xs with
    | none => some x
    | some m => some (min x m)

/-- One row of the hourly summary dataframe: floored timestamp,
minimum visibility (NaN as `none`), minimum ceiling. -/
structure HourlyEntry where
  hour : Nat
  minVis : Option ℚ
  minCeil : Option ℚ
  deriving DecidableEq, Repr

/-- The group of observations whose timestamp floors to `h`. -/
def hourGroup (observations : List Obs) (h : Nat) : List Obs :=
  observations.filter (fun o => floorHour o.date = h)

/-- The present (non-missing) visibility values of hour `h`. -/
def visValues (observations : List Obs) (h : Nat) : List ℚ :=
  (hourGroup observations h).filterMap (fun o => o.vsby)

/-- The computed ceilings of the observations of hour `h`. -/
def ceilValues (observations : List Obs) (h : Nat) : List ℚ :=
  (hourGroup observations h).map (fun o => calculateCeiling o.layers)

/-- `MetarSummarizer._compute_hourly_minimums` (lines 88-101): ceiling
per observation, group by floored hour, aggregate each group's `vsby`
and `ceiling` columns with `min` (pandas keeps a group whose values
are all NaN, with a NaN minimum). -/
def computeHourlyMinimums (observations : List Obs) : List HourlyEntry :=
  ((observations.map (fun o => floorHour o.date)).dedup).map (fun k =>
    { hour := k
      minVis := listMinQ (visValues observations k)
      minCeil := listMinQ (ceilValues observations k) })

theorem listMinQ_spec {l : List ℚ} {m : ℚ} (hm : listMinQ l = some m) :
    m ∈ l ∧ ∀ x ∈ l, m ≤ x := by
  induction l generalizing m with
  | nil => simp [listMinQ] at hm
  | cons x xs ih =>
    rw [listMinQ] at hm
    rcases hx : listMinQ xs with _ | m'
    · rw [hx] at hm
      have hxs : xs = [] := by
        cases xs with
        | nil => rfl
        | cons y ys =>
          rw [listMinQ] at hx
          rcases h2 : listMinQ ys with _ | z <;> rw [h2] at hx <;> simp at hx
      subst hxs
      simp at hm
      simp [hm]
    · rw [hx] at hm
      obtain ⟨hmem, hle⟩ := ih hx
      have hm' : m = min x m' := by simpa using hm.symm
      constructor
      · rcases le_total x m' with hc | hc
        · simp [hm', min_eq_left hc]
        · right
          rw [hm', min_eq_right hc]
          exact hmem
      · intro y hy
        rcases List.mem_cons.mp hy with rfl | hy
        · rw [hm']; exact min_le_left _ _
        · rw [hm']
          exact le_trans (min_le_right _ _) (hle y hy)

theorem listMinQ_ne_none {l : List ℚ} (h : l ≠ []) : ∃ m, listMinQ l = some m := by
  cases l with
  | nil => exact absurd rfl h
  | cons x xs =>
    rw [listMinQ]
    rcases listMinQ xs with _ | m' <;> exact ⟨_, rfl⟩

theorem listMinQ_nil_of_none {l : List ℚ} (h : listMinQ l = none) : l = [] := by
  cases l with
  | nil => rfl
  | cons x xs =>
    rw [listMinQ] at h
    rcases h2 : listMinQ xs with _ | z <;> rw [h2] at h <;> simp at h

/-- C3: for any hour that occurs among the observations and has at
least one present visibility value, the summary has an entry for that
hour whose minVisibility is the arithmetic minimum of the present
visibility values of the hour, and whose minCeiling is the arithmetic
minimum of the computed ceilings of the hour. -/
theorem computeHourlyMinimums_correct (observations : List Obs) (h : Nat)
    (hocc : ∃ o ∈ observations, floorHour o.date = h)
    (hvis : ∃ o ∈ observations, floorHour o.date = h ∧ o.vsby.isSome) :
    ∃ e ∈ computeHourlyMinimums observations,
      e.hour = h ∧
      (∃ v, e.minVis = some v ∧
        v ∈ visValues observations h ∧ ∀ w ∈ visValues observations h, v ≤ w) ∧
      (∃ c, e.minCeil = some c ∧
        c ∈ ceilValues observations h ∧ ∀ w ∈ ceilValues observations h, c ≤ w) := by
  obtain ⟨o, ho, hoh⟩ := hocc
  obtain ⟨o', ho', hoh', hsome⟩ := hvis
  have hkey : h ∈ (observations.map (fun o => floorHour o.date)).dedup := by
    rw [List.mem_dedup, List.mem_map]
    exact ⟨o, ho, hoh⟩
  refine ⟨_, List.mem_map.mpr ⟨h, hkey, rfl⟩, rfl, ?_, ?_⟩
  · have hne : visValues observations h ≠ [] := by
      obtain ⟨v, hv⟩ := Option.isSome_iff_exists.mp hsome
      have : v ∈ visValues observations h := by
        rw [visValues, List.mem_filterMap]
        exact ⟨o', by rw [hourGroup, List.mem_filter]; exact ⟨ho', by simp [hoh']⟩, hv⟩
      intro hcon
      rw [hcon] at this
      exact absurd this (List.not_mem_nil v)
    obtain ⟨m, hm⟩ := listMinQ_ne_none hne
    obtain ⟨hmem, hle⟩ := listMinQ_spec hm
    exact ⟨m, hm, hmem, hle⟩
  · have hne : ceilValues observations h ≠ [] := by
      have : calculateCeiling o.layers ∈ ceilValues observations h := by
        rw [ceilValues, List.mem_map]
        exact ⟨o, by rw [hourGroup, List.mem_filter]; exact ⟨ho, by simp [hoh]⟩, rfl⟩
      intro hcon
      rw [hcon] at this
      exact absurd this (List.not_mem_nil _)
    obtain ⟨m, hm⟩ := listMinQ_ne_none hne
    obtain ⟨hmem, hle⟩ := listMinQ_spec hm
    exact ⟨m, hm, hmem, hle⟩

/-- Witness for C3 at a concrete input: two observations in hour 600
(minutes 600 and 610), visibilities 10 and 4, ceilings 3000 and
100000 (no qualifying layer). -/
theorem computeHourlyMinimums_correct_witness :
    (∃ o ∈ [Obs.mk 600 (some 10) [SkyLayer.mk (some "BKN") (some 3000)],
            Obs.mk 610 (some 4) []], floorHour o.date = 600) ∧
    (∃ o ∈ [Obs.mk 600 (some 10) [SkyLayer.mk (some "BKN") (some 3000)],
            Obs.mk 610 (some 4) []], floorHour o.date = 600 ∧ o.vsby.isSome) ∧
    (∃ e ∈ computeHourlyMinimums
        [Obs.mk 600 (some 10) [SkyLayer.mk (some "BKN") (some 3000)],
         Obs.mk 610 (some 4) []],
      e.hour = 600 ∧
      (∃ v, e.minVis = some v ∧
        v ∈ visValues [Obs.mk 600 (some 10) [SkyLayer.mk (some "BKN") (some 3000)],
                       Obs.mk 610 (some 4) []] 600 ∧
        ∀ w ∈ visValues [Obs.mk 600 (some 10) [SkyLayer.mk (some "BKN") (some 3000)],
                         Obs.mk 610 (some 4) []] 600, v ≤ w) ∧
      (∃ c, e.minCeil = some c ∧
        c ∈ ceilValues [Obs.mk 600 (some 10) [SkyLayer.mk (some "BKN") (some 3000)],
                        Obs.mk 610 (some 4) []] 600 ∧
        ∀ w ∈ ceilValues [Obs.mk 600 (some 10) [SkyLayer.mk (some "BKN") (some 3000)],
                          Obs.mk 610 (some 4) []] 600, c ≤ w)) :=
  ⟨by decide, by decide,
   computeHourlyMinimums_correct _ 600 (by decide) (by decide)⟩

/-- C6 counterexample: one observation at minute 600 (hour 600) with
missing visibility. The claim says such an hour is dropped from the
summary entirely; the code keeps the group (pandas retains a group
whose aggregated column is all-NaN), so an entry for hour 600 is
present, with an undefined minVisibility. -/
theorem all_vis_missing_hour_not_dropped :
    ∃ e ∈ computeHourlyMinimums [Obs.mk 600 none []],
      e.hour = 600 ∧ e.minVis = none := by
  decide

/-- C6 amended: an hour whose observations all lack a visibility
value is kept in the hourly summary, with an undefined (missing)
minVisibility (never a zero default) and a defined minCeiling. -/
theorem all_vis_missing_hour_kept (observations : List Obs) (h : Nat)
    (hocc : ∃ o ∈ observations, floorHour o.date = h)
    (hnone : ∀ o ∈ observations, floorHour o.date = h → o.vsby = none) :
    ∃ e ∈ computeHourlyMinimums observations,
      e.hour = h ∧ e.minVis = none ∧ e.minCeil.isSome := by
  obtain ⟨o, ho, hoh⟩ := hocc
  have hkey : h ∈ (observations.map (fun o => floorHour o.date)).dedup := by
    rw [List.mem_dedup, List.mem_map]
    exact ⟨o, ho, hoh⟩
  refine ⟨_, List.mem_map.mpr ⟨h, hkey, rfl⟩, rfl, ?_, ?_⟩
  · have hvempty : visValues observations h = [] := by
      rw [visValues, List.filterMap_eq_nil_iff]
      intro a ha
      rw [hourGroup, List.mem_filter] at ha
      exact hnone a ha.1 (by simpa using ha.2)
    rw [hvempty]
    rfl
  · have hne : ceilValues observations h ≠ [] := by
      have : calculateCeiling o.layers ∈ ceilValues observations h := by
        rw [ceilValues, List.mem_map]
        exact ⟨o, by rw [hourGroup, List.mem_filter]; exact ⟨ho, by simp [hoh]⟩, rfl⟩
      intro hcon
      rw [hcon] at this
      exact absurd this (List.not_mem_nil _)
    obtain ⟨m, hm⟩ := listMinQ_ne_none hne
    simp [hm]

/-- Witness for the amended C6 at a concrete input. -/
theorem all_vis_missing_hour_kept_witness :
    (∃ o ∈ [Obs.mk 600 none [], Obs.mk 615 none []], floorHour o.date = 600) ∧
    (∀ o ∈ [Obs.mk 600 none [], Obs.mk 615 none []],
      floorHour o.date = 600 → o.vsby = none) ∧
    ∃ e ∈ computeHourlyMinimums [Obs.mk 600 none [], Obs.mk 615 none []],
      e.hour = 600 ∧ e.minVis = none ∧ e.minCeil.isSome :=
  ⟨by decide, by decide,
   all_vis_missing_hour_kept _ 600 (by decide) (by decide)⟩

/-! ## Worst-per-hour classification versus min-then-classify (C9) -/

/-- The worst (minimum) category of a non-empty collection, written
head and tail: `agg('min')` over the per-observation categories. -/
def worstOf (x : FlightCondition) (xs : List FlightCondition) : FlightCondition :=
  xs.foldl fcMin x

/-- Ceiling-only category: the best category whose ceiling lower
bound the value meets (proof-side abstraction of the rule table). -/
def catC (c : ℚ) : FlightCondition :=
  if 3000 ≤ c then .VFR else if 1000 ≤ c then .MVFR
  else if 500 ≤ c then .IFR else .LIFR

/-- Visibility-only category: the best category whose visibility
lower bound the value meets. -/
def catV (v : ℚ) : FlightCondition :=
  if 5 ≤ v then .VFR else if 3 ≤ v then .MVFR
  else if 1 ≤ v then .IFR else .LIFR

theorem classify_some (c v : ℚ) :
    classify c (some v) =
      if 3000 ≤ c ∧ 5 ≤ v then .VFR
      else if 1000 ≤ c ∧ 3 ≤ v then .MVFR
      else if 500 ≤ c ∧ 1 ≤ v then .IFR
      else .LIFR := by
  simp [classify, visGe]

theorem classify_eq_fcMin (c v : ℚ) :
    classify c (some v) = fcMin (catC c) (catV v) := by
  rw [classify_some]
  unfold catC catV fcMin
  split_ifs <;>
    first
    | rfl
    | (exfalso; simp_all [FlightCondition.val]; linarith)
    | simp_all [FlightCondition.val]

theorem catC_mono {a b : ℚ} (hab : a ≤ b) : (catC a).val ≤ (catC b).val := by
  unfold catC
  split_ifs <;> first | (exfalso; linarith) | simp [FlightCondition.val]

theorem catV_mono {a b : ℚ} (hab : a ≤ b) : (catV a).val ≤ (catV b).val := by
  unfold catV
  split_ifs <;> first | (exfalso; linarith) | simp [FlightCondition.val]

theorem fcMin_eq_left {a b : FlightCondition} (hab : a.val ≤ b.val) :
    fcMin a b = a := by
  unfold fcMin
  rw [if_pos hab]

theorem fcMin_eq_right {a b : FlightCondition} (hab : b.val ≤ a.val) :
    fcMin a b = b := by
  unfold fcMin
  split_ifs with h2
  · have hv : a.val = b.val := le_antisymm h2 hab
    cases a <;> cases b <;> simp_all [FlightCondition.val]
  · rfl

theorem catC_min (a b : ℚ) : catC (min a b) = fcMin (catC a) (catC b) := by
  rcases le_total a b with hab | hab
  · rw [min_eq_left hab, fcMin_eq_left (catC_mono hab)]
  · rw [min_eq_right hab, fcMin_eq_right (catC_mono hab)]

theorem catV_min (a b : ℚ) : catV (min a b) = fcMin (catV a) (catV b) := by
  rcases le_total a b with hab | hab
  · rw [min_eq_left hab, fcMin_eq_left (catV_mono hab)]
  · rw [min_eq_right hab, fcMin_eq_right (catV_mono hab)]

theorem fcMin_interchange (w x y z : FlightCondition) :
    fcMin (fcMin w x) (fcMin y z) = fcMin (fcMin w y) (fcMin x z) := by
  cases w <;> cases x <;> cases y <;> cases z <;> rfl

theorem classify_fcMin_pair (a b : ℚ × ℚ) :
    fcMin (classify a.1 (some a.2)) (classify b.1 (some b.2)) =
    classify (min a.1 b.1) (some (min a.2 b.2)) := by
  rw [classify_eq_fcMin, classify_eq_fcMin, classify_eq_fcMin,
    catC_min, catV_min, fcMin_interchange]

/-- C9: over a non-empty collection of (ceiling, visibility) pairs
all present, the worst of the per-observation classifications (the
analyzer's classify-then-agg-min path) equals the classification of
the pair of column minimums (the summarizer's min-then-classify
path): each category is a conjunction of lower bounds and classify is
monotone in both arguments. -/
theorem worst_classify_eq_classify_min (p : ℚ × ℚ) (l : List (ℚ × ℚ)) :
    worstOf (classify p.1 (some p.2)) (l.map (fun q => classify q.1 (some q.2))) =
    classify (l.foldl (fun a q => min a q.1) p.1)
      (some (l.foldl (fun a q => min a q.2) p.2)) := by
  induction l generalizing p with
  | nil => rfl
  | cons q l ih =>
    have hstep : worstOf (classify p.1 (some p.2))
        ((q :: l).map (fun r => classify r.1 (some r.2))) =
        worstOf (classify (min p.1 q.1) (some (min p.2 q.2)))
          (l.map (fun r => classify r.1 (some r.2))) := by
      rw [List.map_cons, worstOf, List.foldl_cons, classify_fcMin_pair]
      rfl
    rw [hstep, ih ⟨min p.1 q.1, min p.2 q.2⟩]
    simp only [List.foldl_cons]

/-! ## Hourly distribution (METARAnalyzer._get_hourly_for_month) -/

/-- `value_counts` of one (hour, category) cell: how many worst-hour
rows of hour-of-day `h` carry category `c`. -/
def countCond (rows : List (Nat × FlightCondition)) (h : Nat) (c : FlightCondition) : Nat :=
  (rows.filter (fun r => decide (r.1 = h ∧ r.2 = c))).length

/-- Total number of worst-hour rows falling on hour-of-day `h`. -/
def hourTotal (rows : List (Nat × FlightCondition)) (h : Nat) : Nat :=
  (rows.filter (fun r => decide (r.1 = h))).length

/-- One output row for hour `h`: counts normalized by the row total
(missing categories counted 0 by `fillna(0)`), columns in the fixed
order VFR, MVFR, IFR, LIFR. -/
def hourlyRow (rows : List (Nat × FlightCondition)) (h : Nat) : List (String × ℚ) :=
  [("VFR", (countCond rows h .VFR : ℚ) / (hourTotal rows h : ℚ)),
   ("MVFR", (countCond rows h .MVFR : ℚ) / (hourTotal rows h : ℚ)),
   ("IFR", (countCond rows h .IFR : ℚ) / (hourTotal rows h : ℚ)),
   ("LIFR", (countCond rows h .LIFR : ℚ) / (hourTotal rows h : ℚ))]

/-- `METARAnalyzer._get_hourly_for_month` (lines 150-168), after the
worst-per-hour reduction: one normalized row per hour-of-day present
in the data. -/
def getHourlyForMonth (rows : List (Nat × FlightCondition)) :
    List (Nat × List (String × ℚ)) :=
  ((rows.map Prod.fst).dedup).map (fun h => (h, hourlyRow rows h))

theorem countCond_partition (rows : List (Nat × FlightCondition)) (h : Nat) :
    countCond rows h .VFR + countCond rows h .MVFR + countCond rows h .IFR +
      countCond rows h .LIFR = hourTotal rows h := by
  induction rows with
  | nil => rfl
  | cons r rs ih =>
    unfold countCond hourTotal at *
    by_cases hr : r.1 = h
    · rcases hc : r.2 <;> simp_all [List.filter_cons, hr, hc] <;> omega
    · simp_all [List.filter_cons, hr]

/-- C5: every hour present in the distribution has its four category
fractions (columns in the fixed order VFR, MVFR, IFR, LIFR) summing
to 1 within tolerance 1/1000, and a category absent from the hour's
data gets the fraction 0. -/
theorem hourly_fractions_sum_to_one (rows : List (Nat × FlightCondition)) (h : Nat)
    (hocc : h ∈ rows.map Prod.fst) :
    ∃ row ∈ getHourlyForMonth rows, row.1 = h ∧
      row.2.map Prod.fst = ["VFR", "MVFR", "IFR", "LIFR"] ∧
      |(row.2.map Prod.snd).sum - 1| ≤ 1 / 1000 ∧
      ∀ c : FlightCondition, countCond rows h c = 0 → (c.label, (0 : ℚ)) ∈ row.2 := by
  have hkey : h ∈ (rows.map Prod.fst).dedup := List.mem_dedup.mpr hocc
  obtain ⟨r, hr, hrh⟩ := List.mem_map.mp hocc
  have htpos : 0 < hourTotal rows h := by
    have hmem : r ∈ rows.filter (fun r => decide (r.1 = h)) :=
      List.mem_filter.mpr ⟨hr, by simp [hrh]⟩
    exact List.length_pos_of_mem hmem
  have ht : (hourTotal rows h : ℚ) ≠ 0 := by
    exact_mod_cast Nat.pos_iff_ne_zero.mp htpos
  refine ⟨(h, hourlyRow rows h), List.mem_map.mpr ⟨h, hkey, rfl⟩, rfl, rfl, ?_, ?_⟩
  · have hpart : (countCond rows h .VFR : ℚ) + countCond rows h .MVFR +
        countCond rows h .IFR + countCond rows h .LIFR = hourTotal rows h := by
      exact_mod_cast congrArg (Nat.cast : Nat → ℚ) (countCond_partition rows h)
    have hsum : ((hourlyRow rows h).map Prod.snd).sum = 1 := by
      simp only [hourlyRow, List.map_cons, List.map_nil, List.sum_cons, List.sum_nil,
        add_zero]
      rw [div_add_div_same, div_add_div_same, div_add_div_same]
      rw [div_eq_one_iff_eq ht]
      linarith [hpart]
    rw [hsum]
    norm_num
  · intro c hc0
    rcases c <;> simp [hourlyRow, FlightCondition.label, hc0]

/-- Witness for C5 at a concrete input: three worst-hour rows, hours
10, 10, 11; hour 10 splits 1/2 VFR, 1/2 MVFR, 0 elsewhere. -/
theorem hourly_fractions_sum_to_one_witness :
    (10 ∈ ([(10, FlightCondition.VFR), (10, FlightCondition.MVFR),
            (11, FlightCondition.LIFR)].map Prod.fst)) ∧
    ∃ row ∈ getHourlyForMonth
        [(10, FlightCondition.VFR), (10, FlightCondition.MVFR),
         (11, FlightCondition.LIFR)], row.1 = 10 ∧
      row.2.map Prod.fst = ["VFR", "MVFR", "IFR", "LIFR"] ∧
      |(row.2.map Prod.snd).sum - 1| ≤ 1 / 1000 ∧
      ∀ c : FlightCondition,
        countCond [(10, FlightCondition.VFR), (10, FlightCondition.MVFR),
          (11, FlightCondition.LIFR)] 10 c = 0 → (c.label, (0 : ℚ)) ∈ row.2 :=
  ⟨by decide, hourly_fractions_sum_to_one _ 10 (by decide)⟩

/-! ## Cache-aside cache (Cache.get) over the Storage contract -/

/-- Byte payloads moved through the storage layer. -/
abbrev Bytes := List Nat

/-- Abstract storage state of the Storage contract: the bytes stored
under each key, or none. -/
abbrev StoreState := String → Option Bytes

/-- A storage backend holding nothing. -/
def emptyStore : StoreState := fun _ => none

/-- `Storage.put`: store `data` under `key`. -/
def storePut (store : StoreState) (key : String) (data : Bytes) : StoreState :=
  fun k => if k = key then some data else store k

/-- `Cache.get` (lib/cache.py lines 29-52): try storage; on a hit
return the stored bytes; on a miss run the retriever once (its single
evaluation may fail), store its result via put, return it. Result
triple: returned bytes or propagated failure, storage state after the
call, number of retriever invocations. -/
def cacheGet (store : StoreState) (key : String) (retriever : Except String Bytes) :
    Except String Bytes × StoreState × Nat :=
  match store key with
  | some data => (Except.ok data, store, 0)
  | none =>
    match retriever with
    | Except.ok data => (Except.ok data, storePut store key data, 1)
    | Except.error e => (Except.error e, store, 1)

/-- C4: with a pre-populated key the retriever is never invoked (0
invocations) and the stored bytes come back with storage unchanged;
with an absent key the retriever runs exactly once, its bytes are
persisted under the key and returned, so a second call with a failing
retriever still succeeds with the same bytes. -/
theorem cacheGet_cache_aside (store : StoreState) (key : String)
    (retriever : Except String Bytes) (d : Bytes) :
    (store key = some d → cacheGet store key retriever = (Except.ok d, store, 0)) ∧
    (store key = none → retriever = Except.ok d →
      cacheGet store key retriever = (Except.ok d, storePut store key d, 1) ∧
      storePut store key d key = some d ∧
      ∀ e, cacheGet (storePut store key d) key (Except.error e) =
        (Except.ok d, storePut store key d, 0)) := by
  constructor
  · intro hhit
    simp [cacheGet, hhit]
  · intro hmiss hr
    subst hr
    refine ⟨by simp [cacheGet, hmiss], by simp [storePut], ?_⟩
    intro e
    simp [cacheGet, storePut]

/-- Witness for C4: a hit on a populated store, a miss on the empty
store, and the subsequent call with a failing retriever. -/
theorem cacheGet_cache_aside_witness :
    cacheGet (storePut emptyStore "k" [1, 2]) "k" (Except.ok [9]) =
      (Except.ok [1, 2], storePut emptyStore "k" [1, 2], 0) ∧
    cacheGet emptyStore "k" (Except.ok [1, 2]) =
      (Except.ok [1, 2], storePut emptyStore "k" [1, 2], 1) ∧
    cacheGet (storePut emptyStore "k" [1, 2]) "k" (Except.error "boom") =
      (Except.ok [1, 2], storePut emptyStore "k" [1, 2], 0) :=
  ⟨(cacheGet_cache_aside (storePut emptyStore "k" [1, 2]) "k" (Except.ok [9]) [1, 2]).1
      (by simp [storePut]),
   ((cacheGet_cache_aside emptyStore "k" (Except.ok [1, 2]) [1, 2]).2 rfl rfl).1,
   ((cacheGet_cache_aside emptyStore "k" (Except.ok [1, 2]) [1, 2]).2 rfl rfl).2.2 "boom"⟩

/-- C7: when the retriever fails, the storage state after the call
equals the state before it (the put is never reached), and on a miss
the failure propagates to the caller unchanged. -/
theorem cacheGet_error_no_write (store : StoreState) (key : String) (e : String)
    (retriever : Except String Bytes) (hfail : retriever = Except.error e) :
    (cacheGet store key retriever).2.1 = store ∧
    (store key = none → (cacheGet store key retriever).1 = Except.error e) := by
  subst hfail
  constructor
  · rcases hk : store key with _ | d <;> simp [cacheGet, hk]
  · intro hmiss
    simp [cacheGet, hmiss]

/-- Witness for C7: failing retriever on the empty store. -/
theorem cacheGet_error_no_write_witness :
    (cacheGet emptyStore "k" (Except.error "boom")).2.1 = emptyStore ∧
    (cacheGet emptyStore "k" (Except.error "boom")).1 = Except.error "boom" :=
  ⟨(cacheGet_error_no_write emptyStore "k" "boom" (Except.error "boom") rfl).1,
   (cacheGet_error_no_write emptyStore "k" "boom" (Except.error "boom") rfl).2 rfl⟩

/-! ## LocalFileStorage.put: temp file, atomic rename, cleanup -/

/-- Which step of a `LocalFileStorage.put` attempt raised. -/
inductive PutErr where
  | writeErr
  | renameErr
  deriving DecidableEq, Repr

/-- Write `data` at `path` in a filesystem state. -/
def fsWrite (fs : StoreState) (path : String) (data : Bytes) : StoreState :=
  fun k => if k = path then some data else fs k

/-- Remove `path` from a filesystem state (`os.unlink`). -/
def fsRemove (fs : StoreState) (path : String) : StoreState :=
  fun k => if k = path then none else fs k

/-- `LocalFileStorage.put` (lib/storage.py lines 74-95) with injected
fault sites: `mkstemp` creates the fresh temp file empty; writing
fills it with `data` unless `writeOk` is false; `os.rename` moves it
over `path` unless `renameOk` is false. On either fault the except
branch unlinks the temp file, best-effort (the unlink succeeds only
when `unlinkOk`, and its own failure is swallowed), and re-raises.
Returns the outcome and the final filesystem state. -/
def localPut (fs : StoreState) (path temp : String) (data : Bytes)
    (writeOk renameOk unlinkOk : Bool) : Except PutErr Unit × StoreState :=
  let fs1 := fsWrite fs temp []
  if writeOk then
    let fs2 := fsWrite fs1 temp data
    if renameOk then
      (Except.ok (), fsWrite (fsRemove fs2 temp) path data)
    else
      (Except.error PutErr.renameErr, if unlinkOk then fsRemove fs2 temp else fs2)
  else
    (Except.error PutErr.writeErr, if unlinkOk then fsRemove fs1 temp else fs1)

/-- C8: on success the data is written to the temp file and renamed
over the destination (destination holds the data, no temp remains);
if the write or the rename fails, the temp file is removed (when the
best-effort unlink succeeds, every other path is untouched) and the
original error is re-raised, whether or not the cleanup unlink itself
succeeds. -/
theorem localPut_atomic (fs : StoreState) (path temp : String) (data : Bytes)
    (hne : temp ≠ path) :
    ((localPut fs path temp data true true true).1 = Except.ok () ∧
     (localPut fs path temp data true true true).2 path = some data ∧
     (localPut fs path temp data true true true).2 temp = none) ∧
    ((localPut fs path temp data false true true).1 = Except.error PutErr.writeErr ∧
     (∀ k, k ≠ temp → (localPut fs path temp data false true true).2 k = fs k) ∧
     (localPut fs path temp data false true true).2 temp = none) ∧
    ((localPut fs path temp data true false true).1 = Except.error PutErr.renameErr ∧
     (∀ k, k ≠ temp → (localPut fs path temp data true false true).2 k = fs k) ∧
     (localPut fs path temp data true false true).2 temp = none) ∧
    (∀ u, (localPut fs path temp data false true u).1 = Except.error PutErr.writeErr ∧
      (localPut fs path temp data true false u).1 = Except.error PutErr.renameErr) := by
  refine ⟨⟨?_, ?_, ?_⟩, ⟨?_, ?_, ?_⟩, ⟨?_, ?_, ?_⟩, ?_⟩ <;>
    simp_all [localPut, fsWrite, fsRemove]

/-- Witness for C8 at a concrete filesystem, destination and temp
name, exercising the success path and both failure sites. -/
theorem localPut_atomic_witness :
    (localPut emptyStore "f" ".tmp" [7] true true true).1 = Except.ok () ∧
    (localPut emptyStore "f" ".tmp" [7] true true true).2 "f" = some [7] ∧
    (localPut emptyStore "f" ".tmp" [7] true true true).2 ".tmp" = none ∧
    (localPut emptyStore "f" ".tmp" [7] false true true).1 = Except.error PutErr.writeErr ∧
    (localPut emptyStore "f" ".tmp" [7] false true true).2 "f" = emptyStore "f" ∧
    (localPut emptyStore "f" ".tmp" [7] true false false).1 = Except.error PutErr.renameErr :=
  ⟨((localPut_atomic emptyStore "f" ".tmp" [7] (by decide)).1).1,
   ((localPut_atomic emptyStore "f" ".tmp" [7] (by decide)).1).2.1,
   ((localPut_atomic emptyStore "f" ".tmp" [7] (by decide)).1).2.2,
   ((localPut_atomic emptyStore "f" ".tmp" [7] (by decide)).2.1).1,
   ((localPut_atomic emptyStore "f" ".tmp" [7] (by decide)).2.1).2.1 "f" (by decide),
   ((localPut_atomic emptyStore "f" ".tmp" [7] (by decide)).2.2.2 false).2⟩
